import Mathlib

/-!
# Routing-accuracy scoring engine: a shallow embedding

This file embeds the routing-accuracy evaluation core of the repository in
Lean 4 and proves the specification's claims about it:

* `RoutingEvaluation` embeds the standalone module
  `src/routing_evaluation.py` (functions `ordered_match`, `unordered_match`,
  `superset_match`, `subset_match`, `precision`, `recall`).
* `RoutingAccuracyEvaluator` embeds the class of
  `src/evaluation/evaluators/routing_accuracy/routing_accuracy.py`:
  its match predicates (raw and deduplicated), precision/recall pairs,
  per-step confusion statistics, evaluator facade (`__call__`) and the
  aggregation of step statistics across results (`__aggregate__`).

Modelling conventions: routes are `List String`; Python `set(...)` becomes
`List.toFinset`; Python dicts become association lists (insertion order
preserved) or option-valued maps; Python floats are modelled as exact
rationals, with `round(x, 2)` modelled by `round2` (round half to even on
the exact rational; it agrees with Python on every value these theorems
evaluate, none of which sits on a representation-dependent tie); the
matched-index sets of the greedy matcher become `List Nat` with membership
tests, and Python's `enumerate` becomes `List.enum`.
-/

/-- Model of Python's `round(q, 2)`: round `q * 100` to the nearest integer,
ties to the even integer, then divide by 100. -/
def round2 (q : ℚ) : ℚ :=
  let n : ℚ := q * 100
  let f : ℤ := Int.floor n
  let frac : ℚ := n - (f : ℚ)
  let r : ℤ :=
    if frac < 1 / 2 then f
    else if 1 / 2 < frac then f + 1
    else if f % 2 = 0 then f else f + 1
  (r : ℚ) / 100

namespace Greedy

/-- Inner loop shared by `_superset_match`, `_precision` and `_recall`
(and the standalone module's twins): scan the enumerated haystack from the
start, skip indices already consumed (`idx in matched_indices: continue`),
and return the first unconsumed index whose value equals the needle. -/
def findMatchAux (needle : String) (pairs : List (Nat × String)) (used : List Nat) : Option Nat :=
  match pairs with
  | [] => none
  | (i, v) :: rest =>
    if i ∈ used then findMatchAux needle rest used
    else if v = needle then some i
    else findMatchAux needle rest used

/-- `findMatchAux` run over `enumerate(haystack)`, as in the source loops. -/
def findMatch (needle : String) (haystack : List String) (used : List Nat) : Option Nat :=
  findMatchAux needle haystack.enum used

/-- The counting loop of `_precision` / `_recall`: iterate the needles,
greedily consuming the first available equal haystack index, and count the
successful matches (`matches += 1`); a needle with no available partner is
skipped without effect. -/
def countAux (needles haystack : List String) (used : List Nat) : Nat :=
  match needles with
  | [] => 0
  | n :: rest =>
    match findMatch n haystack used with
    | none => countAux rest haystack used
    | some i => countAux rest haystack (i :: used) + 1

/-- The greedy one-to-one matched count, started with no index consumed. -/
def countMatches (needles haystack : List String) : Nat :=
  countAux needles haystack []

/-- The loop of `_superset_match`: iterate the needles (the reference
route); as soon as one finds no available partner return `0`
(`if not found_match: return 0`), otherwise consume the matched index and
continue; return `1` when every needle was matched. -/
def supersetAux (needles haystack : List String) (used : List Nat) : Nat :=
  match needles with
  | [] => 1
  | n :: rest =>
    match findMatch n haystack used with
    | none => 0
    | some i => supersetAux rest haystack (i :: used)

/-- Multiset of haystack values still available: the values sitting at
indices not yet consumed. Abstraction of the `(haystack, used)` state. -/
def avail (haystack : List String) (used : List Nat) : Multiset String :=
  ((haystack.enum.filter fun p => decide (p.1 ∉ used)).map Prod.snd : List String)

/-- Abstract counterpart of `countAux` over the available multiset. -/
def msCount (needles : List String) (a : Multiset String) : Nat :=
  match needles with
  | [] => 0
  | n :: rest => if n ∈ a then msCount rest (a.erase n) + 1 else msCount rest a

/-- Abstract counterpart of `supersetAux` over the available multiset. -/
def msAll (needles : List String) (a : Multiset String) : Nat :=
  match needles with
  | [] => 1
  | n :: rest => if n ∈ a then msAll rest (a.erase n) else 0

end Greedy

namespace RoutingEvaluation

/-- `routing_evaluation.ordered_match`: strict elementwise equality. -/
def ordered_match (output reference_output : List String) : Nat :=
  if output = reference_output then 1 else 0

/-- `routing_evaluation.unordered_match`: compare the two sorted lists. -/
def unordered_match (output reference_output : List String) : Nat :=
  if output.insertionSort (· ≤ ·) = reference_output.insertionSort (· ≤ ·) then 1 else 0

/-- `routing_evaluation.superset_match`: greedily match every reference
element into a distinct output position. -/
def superset_match (output reference_output : List String) : Nat :=
  Greedy.supersetAux reference_output output []

/-- `routing_evaluation.subset_match`: the superset-match algorithm with
its arguments swapped. -/
def subset_match (output reference_output : List String) : Nat :=
  superset_match reference_output output

/-- `routing_evaluation.precision`: `0.0` for an empty output, else the
greedy matched count over `len(output)`, rounded to 2 decimals. -/
def precision (output reference_output : List String) : ℚ :=
  if output = [] then 0
  else round2 ((Greedy.countMatches output reference_output : ℚ) / (output.length : ℚ))

/-- `routing_evaluation.recall`: `0.0` for an empty reference output (no
both-empty shortcut in this module), else the greedy matched count over
`len(reference_output)`, rounded to 2 decimals. -/
def «recall» (output reference_output : List String) : ℚ :=
  if reference_output = [] then 0
  else round2 ((Greedy.countMatches reference_output output : ℚ) / (reference_output.length : ℚ))

end RoutingEvaluation

/-- Per-step confusion counters, the `{"tp": _, "fp": _, "fn": _}` record. -/
structure StepStat where
  tp : Nat
  fp : Nat
  fn : Nat
deriving DecidableEq

/-- A routing step `{name, type}` as consumed by the evaluator facade. -/
structure Step where
  name : String
  type : String
deriving DecidableEq

namespace RoutingAccuracyEvaluator

/-- `RoutingAccuracyEvaluator._ordered_match`. -/
def ordered_match (route reference_route : List String) : Nat :=
  if route = reference_route then 1 else 0

/-- `RoutingAccuracyEvaluator._unordered_match`: compare sorted lists. -/
def unordered_match (route reference_route : List String) : Nat :=
  if route.insertionSort (· ≤ ·) = reference_route.insertionSort (· ≤ ·) then 1 else 0

/-- `RoutingAccuracyEvaluator._unordered_match_dedup`: compare the two
deduplicating sets. -/
def unordered_match_dedup (route reference_route : List String) : Nat :=
  if route.toFinset = reference_route.toFinset then 1 else 0

/-- `RoutingAccuracyEvaluator._superset_match`: greedy one-to-one matching
of every reference element into the route. -/
def superset_match (route reference_route : List String) : Nat :=
  Greedy.supersetAux reference_route route []

/-- `RoutingAccuracyEvaluator._superset_match_dedup`:
`reference_set.issubset(route_set)`. -/
def superset_match_dedup (route reference_route : List String) : Nat :=
  if reference_route.toFinset ⊆ route.toFinset then 1 else 0

/-- `RoutingAccuracyEvaluator._subset_match`: the superset-match algorithm
with its arguments swapped. -/
def subset_match (route reference_route : List String) : Nat :=
  superset_match reference_route route

/-- `RoutingAccuracyEvaluator._subset_match_dedup`:
`route_set.issubset(reference_set)`. -/
def subset_match_dedup (route reference_route : List String) : Nat :=
  if route.toFinset ⊆ reference_route.toFinset then 1 else 0

/-- `RoutingAccuracyEvaluator._precision`: `0.0` for an empty route, else
greedy matched count over `len(route)`, rounded to 2 decimals. -/
def precision (route reference_route : List String) : ℚ :=
  if route = [] then 0
  else round2 ((Greedy.countMatches route reference_route : ℚ) / (route.length : ℚ))

/-- `RoutingAccuracyEvaluator._precision_dedup`:
`|route_set ∩ reference_set| / |route_set|`, with `1.0` when both sets are
empty and `0.0` when only `route_set` is. -/
def precision_dedup (route reference_route : List String) : ℚ :=
  if route.toFinset = ∅ then
    (if reference_route.toFinset = ∅ then 1 else 0)
  else round2 (((route.toFinset ∩ reference_route.toFinset).card : ℚ) / (route.toFinset.card : ℚ))

/-- `RoutingAccuracyEvaluator._recall`: when the reference route is empty,
`1.0` if the route is also empty and `0.0` otherwise; else greedy matched
count over `len(reference_route)`, rounded to 2 decimals. -/
def «recall» (route reference_route : List String) : ℚ :=
  if reference_route = [] then
    (if route = [] then 1 else 0)
  else round2 ((Greedy.countMatches reference_route route : ℚ) / (reference_route.length : ℚ))

/-- `RoutingAccuracyEvaluator._recall_dedup`:
`|route_set ∩ reference_set| / |reference_set|`, with `1.0` when both sets
are empty and `0.0` when only `reference_set` is. -/
def recall_dedup (route reference_route : List String) : ℚ :=
  if reference_route.toFinset = ∅ then
    (if route.toFinset = ∅ then 1 else 0)
  else round2 (((route.toFinset ∩ reference_route.toFinset).card : ℚ) / (reference_route.toFinset.card : ℚ))

/-- `RoutingAccuracyEvaluator._step_stats` as a map: a step in both sets
gets `{tp:1}`, only in the route `{fp:1}`, only in the reference `{fn:1}`,
and a step in neither is absent from the dict. -/
def step_stats (route reference_route : List String) (step : String) : Option StepStat :=
  if step ∈ route then
    if step ∈ reference_route then some ⟨1, 0, 0⟩ else some ⟨0, 1, 0⟩
  else
    if step ∈ reference_route then some ⟨0, 0, 1⟩ else none

/-- The `RoutingAccuracyResult` record returned by `_evaluate`. -/
structure Result where
  ordered_match : Nat
  unordered_match : Nat
  superset_match : Nat
  subset_match : Nat
  precision : ℚ
  «recall» : ℚ
  unordered_match_dedup : Nat
  superset_match_dedup : Nat
  subset_match_dedup : Nat
  precision_dedup : ℚ
  recall_dedup : ℚ
  step_stats : String → Option StepStat
  route_evaluated : List String
  reference_route_evaluated : List String

/-- `RoutingAccuracyEvaluator._evaluate`: assemble every metric. -/
def evaluate (route reference_route : List String) : Result :=
  { ordered_match := ordered_match route reference_route
    unordered_match := unordered_match route reference_route
    superset_match := superset_match route reference_route
    subset_match := subset_match route reference_route
    precision := precision route reference_route
    «recall» := «recall» route reference_route
    unordered_match_dedup := unordered_match_dedup route reference_route
    superset_match_dedup := superset_match_dedup route reference_route
    subset_match_dedup := subset_match_dedup route reference_route
    precision_dedup := precision_dedup route reference_route
    recall_dedup := recall_dedup route reference_route
    step_stats := step_stats route reference_route
    route_evaluated := route
    reference_route_evaluated := reference_route }

/-- `RoutingAccuracyEvaluator.__init__`: the constructor stores
`step_types_to_evaluate` unvalidated; its body contains no raise, so no
configuration error is possible. Modelled as an `Except` to make the
absence of an error path expressible. -/
def init (step_types_to_evaluate : List String) : Except String (List String) :=
  Except.ok step_types_to_evaluate

/-- `RoutingAccuracyEvaluator.__call__`: filter both inputs to the steps
whose `type` is in `step_types_to_evaluate`, project to `name` in order,
and evaluate the projections. -/
def call (step_types_to_evaluate : List String) (route reference_route : List Step) : Result :=
  let route_to_evaluate :=
    (route.filter fun step => decide (step.type ∈ step_types_to_evaluate)).map Step.name
  let reference_route_to_evaluate :=
    (reference_route.filter fun step => decide (step.type ∈ step_types_to_evaluate)).map Step.name
  evaluate route_to_evaluate reference_route_to_evaluate

/-- Elementwise sum of confusion counters
(`agent_stats[agent]["tp"] += stats.get("tp", 0)`, and likewise fp, fn). -/
def addStat (s t : StepStat) : StepStat :=
  ⟨s.tp + t.tp, s.fp + t.fp, s.fn + t.fn⟩

/-- Fold one `(agent, stats)` item into the running totals table: an agent
already present is updated in place, a new agent is appended (Python dict
insertion-order semantics of `__aggregate__`'s accumulation loop). -/
def addEntry (tbl : List (String × StepStat)) (e : String × StepStat) : List (String × StepStat) :=
  match tbl with
  | [] => [e]
  | (b, t) :: rest =>
    if b = e.1 then (b, addStat t e.2) :: rest else (b, t) :: addEntry rest e

/-- The accumulation phase of `__aggregate__`: fold every `step_stats`
table of every result into one per-agent totals table. -/
def agentStats (results : List (List (String × StepStat))) : List (String × StepStat) :=
  results.foldl (fun tbl record => record.foldl addEntry tbl) []

/-- The precision formula of `__aggregate__`: `tp/(tp+fp)` when `tp+fp>0`,
else `1.0` when `tp+fp+fn == 0`, else `0.0`. -/
def agg_precision (s : StepStat) : ℚ :=
  if s.tp + s.fp > 0 then (s.tp : ℚ) / ((s.tp : ℚ) + (s.fp : ℚ))
  else if s.tp + s.fp + s.fn = 0 then 1 else 0

/-- The recall formula of `__aggregate__`: `tp/(tp+fn)` when `tp+fn>0`,
else `1.0` when `tp+fp+fn == 0`, else `0.0`. -/
def agg_recall (s : StepStat) : ℚ :=
  if s.tp + s.fn > 0 then (s.tp : ℚ) / ((s.tp : ℚ) + (s.fn : ℚ))
  else if s.tp + s.fp + s.fn = 0 then 1 else 0

/-- The six flat entries `__aggregate__` emits for one agent; precision
and recall are rounded to 2 decimals, `support = tp + fn`. -/
def metricsFor (agent : String) (s : StepStat) : List (String × ℚ) :=
  [(agent ++ "_precision", round2 (agg_precision s)),
   (agent ++ "_recall", round2 (agg_recall s)),
   (agent ++ "_tp", (s.tp : ℚ)),
   (agent ++ "_fp", (s.fp : ℚ)),
   (agent ++ "_fn", (s.fn : ℚ)),
   (agent ++ "_support", ((s.tp + s.fn : Nat) : ℚ))]

/-- `RoutingAccuracyEvaluator.__aggregate__`: accumulate all step stats,
then emit the flat `{agent}_{metric}` mapping in table order. -/
def aggregate (results : List (List (String × StepStat))) : List (String × ℚ) :=
  (agentStats results).flatMap fun p => metricsFor p.1 p.2

/-- Dict lookup on the association lists used by the aggregator. -/
def lookupStat (agent : String) : List (String × StepStat) → Option StepStat
  | [] => none
  | (b, t) :: rest => if b = agent then some t else lookupStat agent rest

/-- Total of all confusion counters recorded for one agent across a list
of step-stats tables (the intended net effect of the accumulation loop). -/
def sumFor (agent : String) (results : List (List (String × StepStat))) : StepStat :=
  ((results.flatMap id).filter fun p => decide (p.1 = agent)).foldl
    (fun acc p => addStat acc p.2) ⟨0, 0, 0⟩

end RoutingAccuracyEvaluator

namespace LLMJudgedRoutingAccuracyEvaluator

/-- `LLMJudgedRoutingAccuracyEvaluator.__init__`, configuration handling
only (the prompty-template loading is I/O and outside this model): the
constructor stores `step_types_to_evaluate` unvalidated, with no
configuration-error path. -/
def init (step_types_to_evaluate : List String) : Except String (List String) :=
  Except.ok step_types_to_evaluate

end LLMJudgedRoutingAccuracyEvaluator

namespace Greedy

theorem mem_enumFrom_le (l : List String) :
    ∀ (k : Nat) (p : Nat × String), p ∈ l.enumFrom k → k ≤ p.1 := by
  induction l with
  | nil => intro k p hp; simp [List.enumFrom] at hp
  | cons a l ih =>
    intro k p hp
    rw [List.enumFrom_cons] at hp
    rcases List.mem_cons.mp hp with h | h
    · subst h; exact Nat.le_refl k
    · exact Nat.le_of_succ_le (ih (k + 1) p h)

theorem findMatchAux_eq_none_iff (needle : String) (used : List Nat) :
    ∀ pairs : List (Nat × String),
    findMatchAux needle pairs used = none ↔
      needle ∉ (pairs.filter fun p => decide (p.1 ∉ used)).map Prod.snd := by
  intro pairs
  induction pairs with
  | nil => simp [findMatchAux]
  | cons q rest ih =>
    obtain ⟨i, v⟩ := q
    by_cases hu : i ∈ used
    · rw [show findMatchAux needle ((i, v) :: rest) used = findMatchAux needle rest used from by
        simp [findMatchAux, hu]]
      rw [List.filter_cons_of_neg (by simpa using hu)]
      exact ih
    · by_cases hv : v = needle
      · rw [show findMatchAux needle ((i, v) :: rest) used = some i from by
          simp [findMatchAux, hu, hv]]
        rw [List.filter_cons_of_pos (by simpa using hu)]
        simp [hv]
      · rw [show findMatchAux needle ((i, v) :: rest) used = findMatchAux needle rest used from by
          simp [findMatchAux, hu, hv]]
        rw [List.filter_cons_of_pos (by simpa using hu)]
        simp only [List.map_cons, List.mem_cons]
        constructor
        · intro h hmem
          rcases hmem with h' | h'
          · exact hv h'.symm
          · exact ih.mp h h'
        · intro h
          exact ih.mpr fun h' => h (Or.inr h')

theorem findMatchAux_eq_some (needle : String) (used : List Nat) :
    ∀ (pairs : List (Nat × String)) (i : Nat),
    findMatchAux needle pairs used = some i → i ∉ used ∧ (i, needle) ∈ pairs := by
  intro pairs
  induction pairs with
  | nil => intro i h; simp [findMatchAux] at h
  | cons q rest ih =>
    obtain ⟨j, v⟩ := q
    intro i h
    by_cases hu : j ∈ used
    · rw [show findMatchAux needle ((j, v) :: rest) used = findMatchAux needle rest used from by
        simp [findMatchAux, hu]] at h
      exact ⟨(ih i h).1, List.mem_cons_of_mem _ (ih i h).2⟩
    · by_cases hv : v = needle
      · rw [show findMatchAux needle ((j, v) :: rest) used = some j from by
          simp [findMatchAux, hu, hv]] at h
        obtain rfl : j = i := Option.some.inj h
        exact ⟨hu, by simp [hv]⟩
      · rw [show findMatchAux needle ((j, v) :: rest) used = findMatchAux needle rest used from by
          simp [findMatchAux, hu, hv]] at h
        exact ⟨(ih i h).1, List.mem_cons_of_mem _ (ih i h).2⟩

theorem filter_enumFrom_notMem_cons (l : List String) :
    ∀ (k : Nat) (used : List Nat) (i : Nat) (v : String), i ∉ used → (i, v) ∈ l.enumFrom k →
    (((l.enumFrom k).filter fun p => decide (p.1 ∉ used)).map Prod.snd : Multiset String) =
      v ::ₘ (((l.enumFrom k).filter fun p => decide (p.1 ∉ i :: used)).map Prod.snd : Multiset String) := by
  induction l with
  | nil => intro k used i v _ hm; simp [List.enumFrom] at hm
  | cons a l ih =>
    intro k used i v hi hm
    rw [List.enumFrom_cons] at hm
    have htail : ∀ p : Nat × String, p ∈ l.enumFrom (k + 1) → k + 1 ≤ p.1 :=
      mem_enumFrom_le l (k + 1)
    rcases List.mem_cons.mp hm with h | h
    · obtain ⟨rfl, rfl⟩ : i = k ∧ v = a := by
        have h1 := congrArg Prod.fst h
        have h2 := congrArg Prod.snd h
        exact ⟨h1, h2⟩
      rw [List.enumFrom_cons]
      rw [List.filter_cons_of_pos (by simpa using hi)]
      rw [List.filter_cons_of_neg (by simp)]
      have hcongr : ∀ p ∈ l.enumFrom (i + 1),
          (decide (p.1 ∉ used)) = (decide (p.1 ∉ i :: used)) := by
        intro p hp
        have hne : p.1 ≠ i := by
          have := htail p hp
          omega
        simp [List.mem_cons, hne]
      rw [List.filter_congr hcongr]
      simp
    · have hik : i ≠ k := by
        have := htail (i, v) h
        omega
      have hki : k ≠ i := fun hh => hik hh.symm
      have hhead : (decide (k ∉ used)) = (decide (k ∉ i :: used)) := by
        apply decide_eq_decide.mpr
        constructor
        · intro h1 h2
          rcases List.mem_cons.mp h2 with h3 | h3
          · exact hki h3
          · exact h1 h3
        · intro h1 h2
          exact h1 (List.mem_cons_of_mem _ h2)
      rw [List.enumFrom_cons]
      by_cases hk : k ∈ used
      · rw [List.filter_cons_of_neg (by simpa using hk)]
        rw [List.filter_cons_of_neg (by rw [← hhead]; simpa using hk)]
        exact ih (k + 1) used i v hi h
      · rw [List.filter_cons_of_pos (by simpa using hk)]
        rw [List.filter_cons_of_pos (by rw [← hhead]; simpa using hk)]
        have := ih (k + 1) used i v hi h
        simp only [List.map_cons, ← Multiset.cons_coe]
        rw [this]
        exact Multiset.cons_swap _ _ _

theorem avail_eq_cons {haystack : List String} {used : List Nat} {i : Nat} {v : String}
    (hi : i ∉ used) (hm : (i, v) ∈ haystack.enum) :
    avail haystack used = v ::ₘ avail haystack (i :: used) :=
  filter_enumFrom_notMem_cons haystack 0 used i v hi hm

theorem findMatch_eq_none_iff {needle : String} {haystack : List String} {used : List Nat} :
    findMatch needle haystack used = none ↔ needle ∉ avail haystack used := by
  rw [findMatch, findMatchAux_eq_none_iff]
  rw [avail, ← Multiset.mem_coe]

theorem findMatch_eq_some {needle : String} {haystack : List String} {used : List Nat} {i : Nat}
    (h : findMatch needle haystack used = some i) :
    i ∉ used ∧ (i, needle) ∈ haystack.enum :=
  findMatchAux_eq_some needle used haystack.enum i h

theorem countAux_eq_msCount (needles : List String) :
    ∀ (haystack : List String) (used : List Nat),
    countAux needles haystack used = msCount needles (avail haystack used) := by
  induction needles with
  | nil => intro haystack used; rfl
  | cons n rest ih =>
    intro haystack used
    rcases hfind : findMatch n haystack used with _ | i
    · have hn : n ∉ avail haystack used := findMatch_eq_none_iff.mp hfind
      rw [show countAux (n :: rest) haystack used = countAux rest haystack used from by
        simp [countAux, hfind]]
      rw [show msCount (n :: rest) (avail haystack used) = msCount rest (avail haystack used) from by
        simp [msCount, hn]]
      exact ih haystack used
    · obtain ⟨hi, hmem⟩ := findMatch_eq_some hfind
      have hcons := avail_eq_cons hi hmem
      have hn : n ∈ avail haystack used := by rw [hcons]; exact Multiset.mem_cons_self n _
      have herase : (avail haystack used).erase n = avail haystack (i :: used) := by
        rw [hcons, Multiset.erase_cons_head]
      rw [show countAux (n :: rest) haystack used = countAux rest haystack (i :: used) + 1 from by
        simp [countAux, hfind]]
      rw [show msCount (n :: rest) (avail haystack used) =
          msCount rest ((avail haystack used).erase n) + 1 from by simp [msCount, hn]]
      rw [herase]
      exact congrArg (· + 1) (ih haystack (i :: used))

theorem supersetAux_eq_msAll (needles : List String) :
    ∀ (haystack : List String) (used : List Nat),
    supersetAux needles haystack used = msAll needles (avail haystack used) := by
  induction needles with
  | nil => intro haystack used; rfl
  | cons n rest ih =>
    intro haystack used
    rcases hfind : findMatch n haystack used with _ | i
    · have hn : n ∉ avail haystack used := findMatch_eq_none_iff.mp hfind
      rw [show supersetAux (n :: rest) haystack used = 0 from by simp [supersetAux, hfind]]
      rw [show msAll (n :: rest) (avail haystack used) = 0 from by simp [msAll, hn]]
    · obtain ⟨hi, hmem⟩ := findMatch_eq_some hfind
      have hcons := avail_eq_cons hi hmem
      have hn : n ∈ avail haystack used := by rw [hcons]; exact Multiset.mem_cons_self n _
      have herase : (avail haystack used).erase n = avail haystack (i :: used) := by
        rw [hcons, Multiset.erase_cons_head]
      rw [show supersetAux (n :: rest) haystack used = supersetAux rest haystack (i :: used) from by
        simp [supersetAux, hfind]]
      rw [show msAll (n :: rest) (avail haystack used) =
          msAll rest ((avail haystack used).erase n) from by simp [msAll, hn]]
      rw [herase]
      exact ih haystack (i :: used)

theorem avail_nil_used (haystack : List String) : avail haystack [] = (haystack : Multiset String) := by
  rw [avail]
  rw [List.filter_eq_self.mpr (by intro p _; simp)]
  rw [List.enum, List.enumFrom_map_snd]

theorem msCount_eq_card_inter (needles : List String) :
    ∀ a : Multiset String, msCount needles a = Multiset.card ((needles : Multiset String) ∩ a) := by
  induction needles with
  | nil => intro a; simp [msCount]
  | cons n rest ih =>
    intro a
    by_cases hn : n ∈ a
    · rw [show msCount (n :: rest) a = msCount rest (a.erase n) + 1 from by simp [msCount, hn]]
      rw [show ((n :: rest : List String) : Multiset String) = n ::ₘ (rest : Multiset String) from rfl]
      rw [Multiset.cons_inter_of_pos _ hn]
      rw [Multiset.card_cons]
      exact congrArg (· + 1) (ih (a.erase n))
    · rw [show msCount (n :: rest) a = msCount rest a from by simp [msCount, hn]]
      rw [show ((n :: rest : List String) : Multiset String) = n ::ₘ (rest : Multiset String) from rfl]
      rw [Multiset.cons_inter_of_neg _ hn]
      exact ih a

theorem msAll_eq_one_iff (needles : List String) :
    ∀ a : Multiset String, msAll needles a = 1 ↔ (needles : Multiset String) ≤ a := by
  induction needles with
  | nil => intro a; simp [msAll]
  | cons n rest ih =>
    intro a
    by_cases hn : n ∈ a
    · rw [show msAll (n :: rest) a = msAll rest (a.erase n) from by simp [msAll, hn]]
      rw [show ((n :: rest : List String) : Multiset String) = n ::ₘ (rest : Multiset String) from rfl]
      rw [ih (a.erase n)]
      constructor
      · intro h
        calc n ::ₘ (rest : Multiset String) ≤ n ::ₘ a.erase n := Multiset.cons_le_cons n h
          _ = a := Multiset.cons_erase hn
      · intro h
        have := Multiset.erase_le_erase n h
        rwa [Multiset.erase_cons_head] at this
    · rw [show msAll (n :: rest) a = 0 from by simp [msAll, hn]]
      rw [show ((n :: rest : List String) : Multiset String) = n ::ₘ (rest : Multiset String) from rfl]
      constructor
      · intro h; exact absurd h (by simp)
      · intro h
        exact absurd (Multiset.mem_of_le h (Multiset.mem_cons_self n _)) hn

theorem countMatches_eq_card_inter (needles haystack : List String) :
    countMatches needles haystack =
      Multiset.card ((needles : Multiset String) ∩ (haystack : Multiset String)) := by
  rw [countMatches, countAux_eq_msCount, avail_nil_used, msCount_eq_card_inter]

end Greedy

theorem RoutingAccuracyEvaluator.superset_match_eq_one_iff (route reference_route : List String) :
    RoutingAccuracyEvaluator.superset_match route reference_route = 1 ↔
      (reference_route : Multiset String) ≤ (route : Multiset String) := by
  rw [RoutingAccuracyEvaluator.superset_match, Greedy.supersetAux_eq_msAll,
    Greedy.avail_nil_used, Greedy.msAll_eq_one_iff]

theorem Greedy.card_inter_coe_eq_sum_min (a b : List String) :
    Multiset.card ((a : Multiset String) ∩ (b : Multiset String)) =
      ∑ v in a.toFinset ∪ b.toFinset, min (a.count v) (b.count v) := by
  have hsub : ((a : Multiset String) ∩ (b : Multiset String)).toFinset ⊆
      a.toFinset ∪ b.toFinset := by
    intro x hx
    have hxa : x ∈ (a : Multiset String) :=
      Multiset.mem_of_le (Multiset.inter_le_left _ _) (Multiset.mem_toFinset.mp hx)
    exact Finset.mem_union_left _ (List.mem_toFinset.mpr (Multiset.mem_coe.mp hxa))
  have hzero : ∀ x ∈ a.toFinset ∪ b.toFinset,
      x ∉ ((a : Multiset String) ∩ (b : Multiset String)).toFinset →
      Multiset.count x ((a : Multiset String) ∩ (b : Multiset String)) = 0 := by
    intro x _ hx
    exact Multiset.count_eq_zero.mpr fun hmem => hx (Multiset.mem_toFinset.mpr hmem)
  rw [← Multiset.toFinset_sum_count_eq]
  rw [Finset.sum_subset hsub hzero]
  apply Finset.sum_congr rfl
  intro v _
  rw [Multiset.count_inter, Multiset.coe_count, Multiset.coe_count]

theorem RoutingAccuracyEvaluator.unordered_match_eq_one_iff (route reference_route : List String) :
    RoutingAccuracyEvaluator.unordered_match route reference_route = 1 ↔
      route.Perm reference_route := by
  rw [RoutingAccuracyEvaluator.unordered_match]
  by_cases h : route.insertionSort (· ≤ ·) = reference_route.insertionSort (· ≤ ·)
  · rw [if_pos h]
    simp only [true_iff]
    have h1 : route.Perm (route.insertionSort (· ≤ ·)) := (List.perm_insertionSort _ _).symm
    rw [h] at h1
    exact h1.trans (List.perm_insertionSort _ _)
  · rw [if_neg h]
    simp only [Nat.zero_ne_one, false_iff]
    intro hperm
    exact h (List.eq_of_perm_of_sorted
      (((List.perm_insertionSort _ route).trans hperm).trans
        (List.perm_insertionSort _ reference_route).symm)
      (List.sorted_insertionSort _ route) (List.sorted_insertionSort _ reference_route))

/-- C2: the greedy first-match left-to-right one-to-one matched count (the
shared numerator of `precision` and `recall`, and the full-coverage test of
`superset_match` / `subset_match`) equals the sum, over the distinct
identifiers of either sequence, of the smaller occurrence count; hence it
is symmetric in its two arguments, so precision's and recall's numerators
agree on the same pair of inputs. -/
theorem claim_C2_greedy_count_is_min_sum :
    (∀ needles haystack : List String,
      Greedy.countMatches needles haystack =
        ∑ v in needles.toFinset ∪ haystack.toFinset,
          min (needles.count v) (haystack.count v)) ∧
    (∀ needles haystack : List String,
      Greedy.countMatches needles haystack = Greedy.countMatches haystack needles) := by
  constructor
  · intro a b
    rw [Greedy.countMatches_eq_card_inter, Greedy.card_inter_coe_eq_sum_min]
  · intro a b
    rw [Greedy.countMatches_eq_card_inter, Greedy.countMatches_eq_card_inter,
      Multiset.inter_comm]

/-- C8: `superset_match(a, b) = 1` exactly when `subset_match(b, a) = 1`;
`_subset_match` is the superset-match algorithm with its arguments
swapped. -/
theorem claim_C8_superset_subset_mirror :
    ∀ a b : List String,
      RoutingAccuracyEvaluator.superset_match a b = 1 ↔
        RoutingAccuracyEvaluator.subset_match b a = 1 := by
  intro a b
  rw [RoutingAccuracyEvaluator.subset_match]

/-- C9: the match predicates form a strictness hierarchy: an ordered match
is an unordered match, and an unordered match makes the superset, subset
and all three dedup predicates succeed. -/
theorem claim_C9_match_hierarchy :
    ∀ a b : List String,
      (RoutingAccuracyEvaluator.ordered_match a b = 1 →
        RoutingAccuracyEvaluator.unordered_match a b = 1) ∧
      (RoutingAccuracyEvaluator.unordered_match a b = 1 →
        RoutingAccuracyEvaluator.superset_match a b = 1 ∧
        RoutingAccuracyEvaluator.subset_match a b = 1 ∧
        RoutingAccuracyEvaluator.unordered_match_dedup a b = 1 ∧
        RoutingAccuracyEvaluator.superset_match_dedup a b = 1 ∧
        RoutingAccuracyEvaluator.subset_match_dedup a b = 1) := by
  intro a b
  constructor
  · intro h
    have hab : a = b := by
      by_contra hne
      rw [RoutingAccuracyEvaluator.ordered_match, if_neg hne] at h
      exact absurd h (by decide)
    exact (RoutingAccuracyEvaluator.unordered_match_eq_one_iff a b).mpr (hab ▸ List.Perm.refl a)
  · intro h
    have hperm : a.Perm b := (RoutingAccuracyEvaluator.unordered_match_eq_one_iff a b).mp h
    have hcoe : (a : Multiset String) = (b : Multiset String) := Multiset.coe_eq_coe.mpr hperm
    have hfin : a.toFinset = b.toFinset := List.toFinset_eq_of_perm _ _ hperm
    refine ⟨?_, ?_, ?_, ?_, ?_⟩
    · exact (RoutingAccuracyEvaluator.superset_match_eq_one_iff a b).mpr (le_of_eq hcoe.symm)
    · rw [RoutingAccuracyEvaluator.subset_match]
      exact (RoutingAccuracyEvaluator.superset_match_eq_one_iff b a).mpr (le_of_eq hcoe)
    · rw [RoutingAccuracyEvaluator.unordered_match_dedup, if_pos hfin]
    · rw [RoutingAccuracyEvaluator.superset_match_dedup, hfin, if_pos (Finset.Subset.refl _)]
    · rw [RoutingAccuracyEvaluator.subset_match_dedup, hfin, if_pos (Finset.Subset.refl _)]

/-- Witness for C9 at the concrete pair `(["x"], ["x"])`. -/
theorem claim_C9_match_hierarchy_witness :
    RoutingAccuracyEvaluator.ordered_match ["x"] ["x"] = 1 ∧
    RoutingAccuracyEvaluator.unordered_match ["x"] ["x"] = 1 ∧
    RoutingAccuracyEvaluator.superset_match ["x"] ["x"] = 1 ∧
    RoutingAccuracyEvaluator.subset_match ["x"] ["x"] = 1 ∧
    RoutingAccuracyEvaluator.unordered_match_dedup ["x"] ["x"] = 1 ∧
    RoutingAccuracyEvaluator.superset_match_dedup ["x"] ["x"] = 1 ∧
    RoutingAccuracyEvaluator.subset_match_dedup ["x"] ["x"] = 1 := by
  have h1 : RoutingAccuracyEvaluator.ordered_match ["x"] ["x"] = 1 := by decide
  have h2 := (claim_C9_match_hierarchy ["x"] ["x"]).1 h1
  have h3 := (claim_C9_match_hierarchy ["x"] ["x"]).2 h2
  exact ⟨h1, h2, h3.1, h3.2.1, h3.2.2.1, h3.2.2.2.1, h3.2.2.2.2⟩

/-- C10: an empty reference route is always superset-matched, an empty
route is always subset-matched, and with both routes empty every match
predicate (ordered, unordered, superset, subset and the three dedup
variants) returns 1 while raw precision is 0.0. -/
theorem claim_C10_empty_matches :
    (∀ a : List String, RoutingAccuracyEvaluator.superset_match a [] = 1) ∧
    (∀ a : List String, RoutingAccuracyEvaluator.subset_match [] a = 1) ∧
    RoutingAccuracyEvaluator.ordered_match [] [] = 1 ∧
    RoutingAccuracyEvaluator.unordered_match [] [] = 1 ∧
    RoutingAccuracyEvaluator.superset_match [] [] = 1 ∧
    RoutingAccuracyEvaluator.subset_match [] [] = 1 ∧
    RoutingAccuracyEvaluator.unordered_match_dedup [] [] = 1 ∧
    RoutingAccuracyEvaluator.superset_match_dedup [] [] = 1 ∧
    RoutingAccuracyEvaluator.subset_match_dedup [] [] = 1 ∧
    RoutingAccuracyEvaluator.precision [] [] = 0 := by
  refine ⟨fun a => rfl, fun a => rfl, rfl, rfl, rfl, rfl, ?_, ?_, ?_, ?_⟩
  · rw [RoutingAccuracyEvaluator.unordered_match_dedup, if_pos rfl]
  · rw [RoutingAccuracyEvaluator.superset_match_dedup, if_pos (Finset.Subset.refl _)]
  · rw [RoutingAccuracyEvaluator.subset_match_dedup, if_pos (Finset.Subset.refl _)]
  · rw [RoutingAccuracyEvaluator.precision, if_pos rfl]

/-- Counterexample to C1 as stated: for `RoutingAccuracyEvaluator._recall`
(one of the scorers the claim covers), `recall([], []) = 1.0`, not `0.0` —
this non-dedup variant does have a both-empty shortcut. -/
theorem claim_C1_counterexample :
    RoutingAccuracyEvaluator.«recall» [] [] = 1 := by
  rw [RoutingAccuracyEvaluator.«recall», if_pos rfl, if_pos rfl]

/-- C1 amended: the standalone scorer `routing_evaluation.recall` returns
0.0 whenever the reference route is empty, for every route including the
empty one; `RoutingAccuracyEvaluator._recall` returns 0.0 on an empty
reference route only for a non-empty route, and returns 1.0 when both are
empty. -/
theorem claim_C1_amended_recall_empty_reference :
    (∀ a : List String, RoutingEvaluation.«recall» a [] = 0) ∧
    (∀ a : List String, a ≠ [] → RoutingAccuracyEvaluator.«recall» a [] = 0) ∧
    RoutingAccuracyEvaluator.«recall» [] [] = 1 := by
  refine ⟨?_, ?_, ?_⟩
  · intro a
    rw [RoutingEvaluation.«recall», if_pos rfl]
  · intro a ha
    rw [RoutingAccuracyEvaluator.«recall», if_pos rfl, if_neg ha]
  · rw [RoutingAccuracyEvaluator.«recall», if_pos rfl, if_pos rfl]

/-- Witness for the amended C1 at the concrete route `["x"]`. -/
theorem claim_C1_amended_recall_empty_reference_witness :
    (["x"] : List String) ≠ [] ∧
    RoutingAccuracyEvaluator.«recall» ["x"] [] = 0 ∧
    RoutingEvaluation.«recall» ["x"] [] = 0 :=
  ⟨by decide,
    claim_C1_amended_recall_empty_reference.2.1 ["x"] (by decide),
    claim_C1_amended_recall_empty_reference.1 ["x"]⟩

/-- Counterexample to C5 as stated: neither constructor variant fails on
an empty `step_types_to_evaluate` list — both return their stored
configuration without a configuration error. -/
theorem claim_C5_counterexample :
    RoutingAccuracyEvaluator.init [] = Except.ok [] ∧
    LLMJudgedRoutingAccuracyEvaluator.init [] = Except.ok [] :=
  ⟨rfl, rfl⟩

/-- C5 amended: both evaluator constructors accept any
`step_types_to_evaluate` list, the empty list included, with no
configuration error; with an empty list the facade filters every step
out, so the evaluated routes are empty and nothing is matched. -/
theorem claim_C5_amended_constructors_accept_empty :
    (∀ l : List String, RoutingAccuracyEvaluator.init l = Except.ok l) ∧
    (∀ l : List String, LLMJudgedRoutingAccuracyEvaluator.init l = Except.ok l) ∧
    (∀ route reference_route : List Step,
      (RoutingAccuracyEvaluator.call [] route reference_route).route_evaluated = [] ∧
      (RoutingAccuracyEvaluator.call [] route reference_route).reference_route_evaluated = []) := by
  refine ⟨fun l => rfl, fun l => rfl, ?_⟩
  intro route reference_route
  constructor
  · show (route.filter fun step => decide (step.type ∈ ([] : List String))).map Step.name = []
    simp
  · show (reference_route.filter fun step => decide (step.type ∈ ([] : List String))).map Step.name = []
    simp

/-- C6: `step_stats` maps exactly the identifiers of
`set(route) ∪ set(reference_route)`; an identifier in both sequences gets
`{tp:1, fp:0, fn:0}`, one only in the route `{tp:0, fp:1, fn:0}`, one only
in the reference route `{tp:0, fp:0, fn:1}`, by membership alone
(independent of multiplicity and position). -/
theorem claim_C6_step_stats :
    ∀ (route reference_route : List String) (step : String),
      ((RoutingAccuracyEvaluator.step_stats route reference_route step).isSome ↔
        step ∈ route.toFinset ∪ reference_route.toFinset) ∧
      (step ∈ route → step ∈ reference_route →
        RoutingAccuracyEvaluator.step_stats route reference_route step = some ⟨1, 0, 0⟩) ∧
      (step ∈ route → step ∉ reference_route →
        RoutingAccuracyEvaluator.step_stats route reference_route step = some ⟨0, 1, 0⟩) ∧
      (step ∉ route → step ∈ reference_route →
        RoutingAccuracyEvaluator.step_stats route reference_route step = some ⟨0, 0, 1⟩) := by
  intro route reference_route step
  refine ⟨?_, ?_, ?_, ?_⟩
  · rw [RoutingAccuracyEvaluator.step_stats]
    by_cases h1 : step ∈ route <;> by_cases h2 : step ∈ reference_route <;>
      simp [h1, h2]
  · intro h1 h2
    rw [RoutingAccuracyEvaluator.step_stats, if_pos h1, if_pos h2]
  · intro h1 h2
    rw [RoutingAccuracyEvaluator.step_stats, if_pos h1, if_neg h2]
  · intro h1 h2
    rw [RoutingAccuracyEvaluator.step_stats, if_neg h1, if_pos h2]

/-- Witness for C6, hitting each membership case on concrete routes. -/
theorem claim_C6_step_stats_witness :
    RoutingAccuracyEvaluator.step_stats ["A", "B"] ["A", "C"] "A" = some ⟨1, 0, 0⟩ ∧
    RoutingAccuracyEvaluator.step_stats ["A", "B"] ["A", "C"] "B" = some ⟨0, 1, 0⟩ ∧
    RoutingAccuracyEvaluator.step_stats ["A", "B"] ["A", "C"] "C" = some ⟨0, 0, 1⟩ :=
  ⟨(claim_C6_step_stats ["A", "B"] ["A", "C"] "A").2.1 (by decide) (by decide),
    (claim_C6_step_stats ["A", "B"] ["A", "C"] "B").2.2.1 (by decide) (by decide),
    (claim_C6_step_stats ["A", "B"] ["A", "C"] "C").2.2.2 (by decide) (by decide)⟩

/-- C7: the dedup metrics define both-empty as 1.0, and an empty side
against a non-empty side as 0.0: `precision_dedup([], []) = 1.0`,
`recall_dedup([], []) = 1.0`, `precision_dedup([], b) = 0.0` for `b` with
a non-empty identifier set, and `recall_dedup(a, []) = 0.0` for `a` with a
non-empty identifier set. -/
theorem claim_C7_dedup_empty_symmetry :
    RoutingAccuracyEvaluator.precision_dedup [] [] = 1 ∧
    RoutingAccuracyEvaluator.recall_dedup [] [] = 1 ∧
    (∀ b : List String, b.toFinset ≠ ∅ →
      RoutingAccuracyEvaluator.precision_dedup [] b = 0) ∧
    (∀ a : List String, a.toFinset ≠ ∅ →
      RoutingAccuracyEvaluator.recall_dedup a [] = 0) := by
  refine ⟨rfl, rfl, ?_, ?_⟩
  · intro b hb
    rw [RoutingAccuracyEvaluator.precision_dedup, if_pos (by simp), if_neg hb]
  · intro a ha
    rw [RoutingAccuracyEvaluator.recall_dedup, if_pos (by simp), if_neg ha]

/-- Witness for C7 at the concrete non-empty side `["x"]`. -/
theorem claim_C7_dedup_empty_symmetry_witness :
    (["x"] : List String).toFinset ≠ ∅ ∧
    RoutingAccuracyEvaluator.precision_dedup [] ["x"] = 0 ∧
    RoutingAccuracyEvaluator.recall_dedup ["x"] [] = 0 :=
  ⟨by decide,
    claim_C7_dedup_empty_symmetry.2.2.1 ["x"] (by decide),
    claim_C7_dedup_empty_symmetry.2.2.2 ["x"] (by decide)⟩

namespace RoutingAccuracyEvaluator

theorem addStat_zero (s : StepStat) : addStat ⟨0, 0, 0⟩ s = s := by
  cases s
  simp [addStat]

theorem lookupStat_addEntry (agent : String) (e : String × StepStat) :
    ∀ tbl : List (String × StepStat),
    lookupStat agent (addEntry tbl e) =
      if e.1 = agent then some (addStat ((lookupStat agent tbl).getD ⟨0, 0, 0⟩) e.2)
      else lookupStat agent tbl := by
  intro tbl
  induction tbl with
  | nil =>
    by_cases he : e.1 = agent <;> simp [addEntry, lookupStat, he, addStat_zero]
  | cons q rest ih =>
    obtain ⟨b, t⟩ := q
    by_cases hb : b = e.1
    · rw [show addEntry ((b, t) :: rest) e = (b, addStat t e.2) :: rest from by
        simp [addEntry, hb]]
      by_cases ha : e.1 = agent
      · have hba : b = agent := hb.trans ha
        simp [lookupStat, hba, ha]
      · have hba : ¬b = agent := fun hh => ha (hb.symm.trans hh)
        simp [lookupStat, hba, ha]
    · rw [show addEntry ((b, t) :: rest) e = (b, t) :: addEntry rest e from by
        simp [addEntry, hb]]
      by_cases hba : b = agent
      · have ha : ¬e.1 = agent := fun hh => hb (hba.trans hh.symm)
        simp [lookupStat, hba, ha]
      · simp only [lookupStat, if_neg hba]
        exact ih

theorem lookupStat_foldl_addEntry (agent : String) :
    ∀ (L : List (String × StepStat)) (tbl : List (String × StepStat)),
    lookupStat agent (L.foldl addEntry tbl) =
      if agent ∈ L.map Prod.fst ∨ (lookupStat agent tbl).isSome then
        some ((L.filter fun p => decide (p.1 = agent)).foldl (fun acc p => addStat acc p.2)
          ((lookupStat agent tbl).getD ⟨0, 0, 0⟩))
      else none := by
  intro L
  induction L with
  | nil =>
    intro tbl
    rcases h : lookupStat agent tbl with _ | s <;> simp [h]
  | cons p L ih =>
    intro tbl
    rw [List.foldl_cons, ih (addEntry tbl p), lookupStat_addEntry agent p tbl]
    by_cases hp : p.1 = agent
    · rw [if_pos hp]
      rw [if_pos (Or.inr (by simp))]
      rw [if_pos (Or.inl (List.mem_map.mpr ⟨p, List.mem_cons_self p L, hp⟩))]
      rw [List.filter_cons_of_pos (by simpa using hp)]
      simp [List.foldl_cons]
    · rw [if_neg hp]
      rw [List.filter_cons_of_neg (by simpa using hp)]
      have hmem : (agent ∈ (p :: L).map Prod.fst ∨ (lookupStat agent tbl).isSome) ↔
          (agent ∈ L.map Prod.fst ∨ (lookupStat agent tbl).isSome) := by
        simp only [List.map_cons, List.mem_cons]
        constructor
        · rintro ((h | h) | h)
          · exact absurd h.symm hp
          · exact Or.inl h
          · exact Or.inr h
        · rintro (h | h)
          · exact Or.inl (Or.inr h)
          · exact Or.inr h
      by_cases hc : agent ∈ L.map Prod.fst ∨ (lookupStat agent tbl).isSome
      · rw [if_pos hc, if_pos (hmem.mpr hc)]
      · rw [if_neg hc, if_neg (fun hh => hc (hmem.mp hh))]

theorem agentStats_eq_foldl_flatten (results : List (List (String × StepStat))) :
    agentStats results = (results.flatMap id).foldl addEntry [] := by
  rw [agentStats]
  have key : ∀ (rs : List (List (String × StepStat))) (tbl : List (String × StepStat)),
      rs.foldl (fun tbl record => record.foldl addEntry tbl) tbl =
        (rs.flatMap id).foldl addEntry tbl := by
    intro rs
    induction rs with
    | nil => intro tbl; simp
    | cons r rest ih =>
      intro tbl
      rw [List.foldl_cons, ih (r.foldl addEntry tbl), List.flatMap_cons, List.foldl_append]
      rfl
  exact key results []

theorem lookupStat_agentStats (results : List (List (String × StepStat))) (agent : String) :
    lookupStat agent (agentStats results) =
      if agent ∈ (results.flatMap id).map Prod.fst then some (sumFor agent results)
      else none := by
  rw [agentStats_eq_foldl_flatten, lookupStat_foldl_addEntry]
  rw [show lookupStat agent [] = none from rfl]
  simp only [Option.isSome_none, Bool.false_eq_true, or_false, Option.getD_none]
  rfl

theorem mem_of_lookupStat_eq_some (agent : String) (s : StepStat) :
    ∀ tbl : List (String × StepStat), lookupStat agent tbl = some s → (agent, s) ∈ tbl := by
  intro tbl
  induction tbl with
  | nil => intro h; exact absurd h (by simp [lookupStat])
  | cons q rest ih =>
    obtain ⟨b, t⟩ := q
    intro h
    by_cases hb : b = agent
    · rw [lookupStat, if_pos hb] at h
      obtain rfl : t = s := Option.some.inj h
      rw [hb]
      exact List.mem_cons_self _ _
    · rw [lookupStat, if_neg hb] at h
      exact List.mem_cons_of_mem _ (ih h)

theorem mem_aggregate_of_lookupStat (results : List (List (String × StepStat)))
    (agent : String) (s : StepStat)
    (h : lookupStat agent (agentStats results) = some s) :
    ∀ e ∈ metricsFor agent s, e ∈ aggregate results := by
  intro e he
  rw [aggregate]
  exact List.mem_flatMap.mpr ⟨(agent, s), mem_of_lookupStat_eq_some agent s _ h, he⟩

end RoutingAccuracyEvaluator

/-- C3: aggregation sums tp/fp/fn per agent across every step-stats table
(a lookup in the accumulated table yields exactly the summed counters, and
is present exactly for agents occurring in some table), emits the six flat
`{agent}_{metric}` entries with precision/recall given by the
`__aggregate__` formulas rounded to 2 decimals and `support = tp + fn`;
on the two concrete results `{"A": {tp:1,fp:0,fn:0}}` and
`{"A": {tp:0,fp:1,fn:0}}` the aggregate is `A_precision = 0.5`,
`A_recall = 1.0`, `A_tp = 1`, `A_fp = 1`, `A_fn = 0`, `A_support = 1`. -/
theorem claim_C3_aggregation :
    (∀ (results : List (List (String × StepStat))) (agent : String),
      RoutingAccuracyEvaluator.lookupStat agent (RoutingAccuracyEvaluator.agentStats results) =
        if agent ∈ (results.flatMap id).map Prod.fst
        then some (RoutingAccuracyEvaluator.sumFor agent results) else none) ∧
    (∀ (results : List (List (String × StepStat))) (agent : String) (s : StepStat),
      RoutingAccuracyEvaluator.lookupStat agent (RoutingAccuracyEvaluator.agentStats results) =
          some s →
      (agent ++ "_precision", round2 (RoutingAccuracyEvaluator.agg_precision s)) ∈
          RoutingAccuracyEvaluator.aggregate results ∧
      (agent ++ "_recall", round2 (RoutingAccuracyEvaluator.agg_recall s)) ∈
          RoutingAccuracyEvaluator.aggregate results ∧
      (agent ++ "_tp", (s.tp : ℚ)) ∈ RoutingAccuracyEvaluator.aggregate results ∧
      (agent ++ "_fp", (s.fp : ℚ)) ∈ RoutingAccuracyEvaluator.aggregate results ∧
      (agent ++ "_fn", (s.fn : ℚ)) ∈ RoutingAccuracyEvaluator.aggregate results ∧
      (agent ++ "_support", ((s.tp + s.fn : Nat) : ℚ)) ∈
          RoutingAccuracyEvaluator.aggregate results) ∧
    RoutingAccuracyEvaluator.aggregate [[("A", ⟨1, 0, 0⟩)], [("A", ⟨0, 1, 0⟩)]] =
      [("A_precision", 1/2), ("A_recall", 1), ("A_tp", 1), ("A_fp", 1),
        ("A_fn", 0), ("A_support", 1)] := by
  refine ⟨RoutingAccuracyEvaluator.lookupStat_agentStats, ?_, ?_⟩
  · intro results agent s h
    have hall := RoutingAccuracyEvaluator.mem_aggregate_of_lookupStat results agent s h
    refine ⟨hall _ ?_, hall _ ?_, hall _ ?_, hall _ ?_, hall _ ?_, hall _ ?_⟩ <;>
      simp [RoutingAccuracyEvaluator.metricsFor]
  · simp only [RoutingAccuracyEvaluator.aggregate, RoutingAccuracyEvaluator.agentStats,
      RoutingAccuracyEvaluator.addEntry, RoutingAccuracyEvaluator.metricsFor,
      RoutingAccuracyEvaluator.agg_precision, RoutingAccuracyEvaluator.agg_recall,
      RoutingAccuracyEvaluator.addStat, List.foldl, List.flatMap]
    norm_num [round2, Int.floor_eq_iff]
    all_goals decide

/-- Witness for C3 on one concrete result table. -/
theorem claim_C3_aggregation_witness :
    RoutingAccuracyEvaluator.lookupStat "A"
        (RoutingAccuracyEvaluator.agentStats [[("A", ⟨1, 0, 0⟩)]]) = some ⟨1, 0, 0⟩ ∧
    ("A" ++ "_precision",
        round2 (RoutingAccuracyEvaluator.agg_precision ⟨1, 0, 0⟩)) ∈
      RoutingAccuracyEvaluator.aggregate [[("A", ⟨1, 0, 0⟩)]] :=
  ⟨by decide,
    (claim_C3_aggregation.2.1 [[("A", ⟨1, 0, 0⟩)]] "A" ⟨1, 0, 0⟩ (by decide)).1⟩

/-- C4: the facade filters both routes to the configured step types,
projects to names in order, and scores the projections; on the concrete
route `[A:agent, B:agent, E:topic, A:agent]` against reference
`[A:agent, B:agent, C:agent, D:agent]` with the default `["agent"]`, the
evaluated sequences are `["A","B","A"]` vs `["A","B","C","D"]` and the
result has `ordered_match = 0`, `superset_match = 0`, `precision = 0.67`,
`recall = 0.5`. -/
theorem claim_C4_facade_concrete_scenario :
    (∀ (step_types : List String) (route reference_route : List Step),
      RoutingAccuracyEvaluator.call step_types route reference_route =
        RoutingAccuracyEvaluator.evaluate
          ((route.filter fun step => decide (step.type ∈ step_types)).map Step.name)
          ((reference_route.filter fun step => decide (step.type ∈ step_types)).map Step.name)) ∧
    (RoutingAccuracyEvaluator.call ["agent"]
        [⟨"A", "agent"⟩, ⟨"B", "agent"⟩, ⟨"E", "topic"⟩, ⟨"A", "agent"⟩]
        [⟨"A", "agent"⟩, ⟨"B", "agent"⟩, ⟨"C", "agent"⟩, ⟨"D", "agent"⟩]).route_evaluated =
      ["A", "B", "A"] ∧
    (RoutingAccuracyEvaluator.call ["agent"]
        [⟨"A", "agent"⟩, ⟨"B", "agent"⟩, ⟨"E", "topic"⟩, ⟨"A", "agent"⟩]
        [⟨"A", "agent"⟩, ⟨"B", "agent"⟩, ⟨"C", "agent"⟩, ⟨"D", "agent"⟩]).reference_route_evaluated =
      ["A", "B", "C", "D"] ∧
    (RoutingAccuracyEvaluator.call ["agent"]
        [⟨"A", "agent"⟩, ⟨"B", "agent"⟩, ⟨"E", "topic"⟩, ⟨"A", "agent"⟩]
        [⟨"A", "agent"⟩, ⟨"B", "agent"⟩, ⟨"C", "agent"⟩, ⟨"D", "agent"⟩]).ordered_match = 0 ∧
    (RoutingAccuracyEvaluator.call ["agent"]
        [⟨"A", "agent"⟩, ⟨"B", "agent"⟩, ⟨"E", "topic"⟩, ⟨"A", "agent"⟩]
        [⟨"A", "agent"⟩, ⟨"B", "agent"⟩, ⟨"C", "agent"⟩, ⟨"D", "agent"⟩]).superset_match = 0 ∧
    (RoutingAccuracyEvaluator.call ["agent"]
        [⟨"A", "agent"⟩, ⟨"B", "agent"⟩, ⟨"E", "topic"⟩, ⟨"A", "agent"⟩]
        [⟨"A", "agent"⟩, ⟨"B", "agent"⟩, ⟨"C", "agent"⟩, ⟨"D", "agent"⟩]).precision = 67/100 ∧
    (RoutingAccuracyEvaluator.call ["agent"]
        [⟨"A", "agent"⟩, ⟨"B", "agent"⟩, ⟨"E", "topic"⟩, ⟨"A", "agent"⟩]
        [⟨"A", "agent"⟩, ⟨"B", "agent"⟩, ⟨"C", "agent"⟩, ⟨"D", "agent"⟩]).«recall» = 1/2 := by
  have hcall : RoutingAccuracyEvaluator.call ["agent"]
      [⟨"A", "agent"⟩, ⟨"B", "agent"⟩, ⟨"E", "topic"⟩, ⟨"A", "agent"⟩]
      [⟨"A", "agent"⟩, ⟨"B", "agent"⟩, ⟨"C", "agent"⟩, ⟨"D", "agent"⟩] =
      RoutingAccuracyEvaluator.evaluate ["A", "B", "A"] ["A", "B", "C", "D"] := by
    rw [show RoutingAccuracyEvaluator.call ["agent"]
        [⟨"A", "agent"⟩, ⟨"B", "agent"⟩, ⟨"E", "topic"⟩, ⟨"A", "agent"⟩]
        [⟨"A", "agent"⟩, ⟨"B", "agent"⟩, ⟨"C", "agent"⟩, ⟨"D", "agent"⟩] =
      RoutingAccuracyEvaluator.evaluate
        ((([⟨"A", "agent"⟩, ⟨"B", "agent"⟩, ⟨"E", "topic"⟩, ⟨"A", "agent"⟩] :
            List Step).filter fun step => decide (step.type ∈ ["agent"])).map Step.name)
        ((([⟨"A", "agent"⟩, ⟨"B", "agent"⟩, ⟨"C", "agent"⟩, ⟨"D", "agent"⟩] :
            List Step).filter fun step => decide (step.type ∈ ["agent"])).map Step.name)
      from rfl]
    rw [show (([⟨"A", "agent"⟩, ⟨"B", "agent"⟩, ⟨"E", "topic"⟩, ⟨"A", "agent"⟩] :
        List Step).filter fun step => decide (step.type ∈ ["agent"])).map Step.name =
        ["A", "B", "A"] from by decide]
    rw [show (([⟨"A", "agent"⟩, ⟨"B", "agent"⟩, ⟨"C", "agent"⟩, ⟨"D", "agent"⟩] :
        List Step).filter fun step => decide (step.type ∈ ["agent"])).map Step.name =
        ["A", "B", "C", "D"] from by decide]
  refine ⟨fun _ _ _ => rfl, ?_, ?_, ?_, ?_, ?_, ?_⟩ <;> rw [hcall]
  · rfl
  · rfl
  · decide
  · decide
  · show RoutingAccuracyEvaluator.precision ["A", "B", "A"] ["A", "B", "C", "D"] = 67/100
    have h : Greedy.countMatches ["A", "B", "A"] ["A", "B", "C", "D"] = 2 := by decide
    simp only [RoutingAccuracyEvaluator.precision, h]
    norm_num [round2, Int.floor_eq_iff]
    all_goals decide
  · show RoutingAccuracyEvaluator.«recall» ["A", "B", "A"] ["A", "B", "C", "D"] = 1/2
    have h : Greedy.countMatches ["A", "B", "C", "D"] ["A", "B", "A"] = 2 := by decide
    simp only [RoutingAccuracyEvaluator.«recall», h]
    norm_num [round2, Int.floor_eq_iff]
    all_goals decide
